import Mathlib

/-!
Shallow embedding of `USBMassStorage.py` (Facedancer USB mass-storage
emulation) and verification of the specification claims about it.

Modelling conventions:
* Python `bytes` values are `List Nat`, each element being a byte value
  (`< 256` whenever the value originated from a real Python `bytes`).
* Python runtime exceptions are modelled with `Except PyErr`.
* Machine integers do not occur: Python integers are unbounded, so `Nat`/`Int`
  model them exactly.  The single floating-point computation in the source
  (`int(self.size / self.block_size)` in `DiskImage.get_sector_count`) is
  modelled exactly by `pyIntTrueDiv` below.
* Data sent on the bulk-IN endpoint (`self.ep_to_host.send(...)`) is collected
  in order into a `List (List Nat)` of sent chunks.
-/

set_option maxRecDepth 8000

namespace USBMassStorage

/-- Byte strings (Python `bytes`) as lists of byte values. -/
abbrev Bytes := List Nat

/-- Python runtime exceptions that the modelled code can raise. -/
inductive PyErr where
  /-- out-of-range byte index (`bytestring[i]` with `i ≥ len`) -/
  | indexError
  /-- reference to an undefined name -/
  | nameError
  /-- `struct.unpack` applied to a buffer of the wrong size -/
  | structError
  /-- `mmap` slice assignment with a value of the wrong length -/
  | valueError
  deriving DecidableEq

/-- `USBMassStorageInterface.STATUS_OKAY`. -/
def STATUS_OKAY : Int := 0x00

/-- `USBMassStorageInterface.STATUS_FAILURE`. -/
def STATUS_FAILURE : Int := 0x02

/-- `USBMassStorageInterface.STATUS_INCOMPLETE`: sentinel that aborts before a
response is emitted. -/
def STATUS_INCOMPLETE : Int := -1

/-- `CommandBlockWrapper`: the parsed fields of a Command Block Wrapper. -/
structure CommandBlockWrapper where
  signature : Bytes
  tag : Bytes
  data_transfer_length : Nat
  flags : Nat
  lun : Nat
  cb_length : Nat
  cb : Bytes
  deriving DecidableEq

/-- `CommandBlockWrapper.__init__`: slices the fixed little-endian layout.
The constructor indexes bytes 8–14 individually (`bytestring[8]` …
`bytestring[14]`), so any input shorter than 15 bytes raises `IndexError`;
the remaining accesses are slices, which never raise.  `cb` keeps all bytes
from offset 15 on (the `cb_length` truncation in the source is commented
out). -/
def CommandBlockWrapper.parse (bytestring : Bytes) : Except PyErr CommandBlockWrapper :=
  if 15 ≤ bytestring.length then
    .ok {
      signature := bytestring.take 4
      tag := (bytestring.drop 4).take 4
      data_transfer_length :=
        bytestring.getD 8 0
          ||| bytestring.getD 9 0 <<< 8
          ||| bytestring.getD 10 0 <<< 16
          ||| bytestring.getD 11 0 <<< 24
      flags := bytestring.getD 12 0
      lun := bytestring.getD 13 0 &&& 0x0f
      cb_length := bytestring.getD 14 0 &&& 0x1f
      cb := bytestring.drop 15 }
  else
    .error .indexError

/-- `DiskImage`: block store backed by an `mmap` of a file.  `image` models the
mmap buffer, `disk` the persistent file contents (synchronised by
`mmap.flush`); `size` is the file size recorded by `os.stat` at open time
(equal to the mmap length at construction). -/
structure DiskImage where
  block_size : Nat
  size : Nat
  image : Bytes
  disk : Bytes
  deriving DecidableEq

/-- Fuel-driven binary logarithm, so that closed instances reduce inside the
kernel.  `log2fuel fuel n = Nat.log2 n` whenever `n ≤ fuel` (proved below). -/
def log2fuel : Nat → Nat → Nat
  | 0, _ => 0
  | fuel + 1, n => if 2 ≤ n then log2fuel fuel (n / 2) + 1 else 0

/-- Binary logarithm (floor), kernel-reducible version of `Nat.log2`. -/
def log2' (n : Nat) : Nat := log2fuel n n

/-- Round `a / b` to the nearest integer, ties to even (`b > 0`). -/
def rhe (a b : Nat) : Nat :=
  let q := a / b
  let r := a % b
  if b < 2 * r then q + 1
  else if 2 * r < b then q
  else if q % 2 = 0 then q else q + 1

/-- `⌊log₂ (n / d)⌋` of the exact rational `n/d` for `n, d ≥ 1`: the IEEE-754
exponent of the quotient.  `n/d ≥ 2^(log₂ n - log₂ d)` is decided exactly by
cross-multiplication. -/
def floatExp (n d : Nat) : Int :=
  if d * 2 ^ log2' n ≤ n * 2 ^ log2' d then (log2' n : Int) - log2' d
  else (log2' n : Int) - log2' d - 1

/-- `int(n / d)` as CPython evaluates it for Python ints `n ≥ 0`, `d > 0`:
`n / d` is true division producing the IEEE-754 double nearest to the exact
rational `n/d` (round half to even, CPython `long_true_divide`), and `int`
truncates it toward zero.  The nearest double is obtained by rounding the
quotient to the lattice of multiples of `2^(E-52)` where `E = ⌊log₂(n/d)⌋`,
i.e. to a 53-bit significand; truncation of the resulting dyadic value is
then exact natural division.  Overflow to infinity (quotients ≥ 2¹⁰²⁴) is
outside the modelled range. -/
def pyIntTrueDiv (n d : Nat) : Nat :=
  if n = 0 then 0
  else if 52 ≤ floatExp n d then
    rhe n (d * 2 ^ (floatExp n d - 52).toNat) * 2 ^ (floatExp n d - 52).toNat
  else
    rhe (n * 2 ^ (52 - floatExp n d).toNat) d / 2 ^ (52 - floatExp n d).toNat

/-- `DiskImage.get_sector_count`: `int(self.size / self.block_size) - 1`.
Note that the source uses float true division `/`, not integer `//`. -/
def get_sector_count (d : DiskImage) : Int :=
  (pyIntTrueDiv d.size d.block_size : Int) - 1

/-- `DiskImage.get_sector_data`: `self.image[block_start:block_end]`. -/
def get_sector_data (d : DiskImage) (address : Nat) : Bytes :=
  let block_start := address * d.block_size
  let block_end := (address + 1) * d.block_size
  (d.image.take block_end).drop block_start

/-- Python slice assignment `l[a:b] = v` on an `mmap` (which cannot resize):
succeeds exactly when `v` has the length of the addressed range, otherwise
raises.  Indices clamp to the buffer length as in Python. -/
def pySliceAssign (l : Bytes) (a b : Nat) (v : Bytes) : Option Bytes :=
  let lo := min a l.length
  let hi := min b l.length
  if v.length = hi - lo then some (l.take lo ++ v ++ l.drop hi) else none

/-- `DiskImage.put_sector_data`: assigns `data[:block_size]` to
`image[block_start:block_end]`, then calls `image.flush()` (modelled by
synchronising `disk` with `image`). -/
def put_sector_data (d : DiskImage) (address : Nat) (data : Bytes) : Except PyErr DiskImage :=
  let block_start := address * d.block_size
  let block_end := (address + 1) * d.block_size
  match pySliceAssign d.image block_start block_end (data.take d.block_size) with
  | some img => .ok { d with image := img, disk := img }
  | none => .error .valueError

/-- Mutable write-session state of `USBMassStorageInterface`
(`is_write_in_progress`, `write_cbw`, `write_base_lba`, `write_length`,
`write_data`). -/
structure MSCState where
  is_write_in_progress : Bool
  write_cbw : Option CommandBlockWrapper
  write_base_lba : Nat
  write_length : Nat
  write_data : Bytes
  deriving DecidableEq

/-- The state installed by `USBMassStorageInterface.__init__`. -/
def init_state : MSCState :=
  { is_write_in_progress := false
    write_cbw := none
    write_base_lba := 0
    write_length := 0
    write_data := [] }

/-- Result of running one SCSI handler: the `(status, response)` pair returned
to `handle_data_available`, plus the interface/disk state after the handler and
the chunks the handler sent directly on the bulk-IN endpoint. -/
structure Effect where
  status : Int
  response : Option Bytes
  st : MSCState
  dsk : DiskImage
  sent : List Bytes
  deriving DecidableEq

/-- Wrap a pure `(status, response)` handler result into an `Effect` (state and
disk untouched, nothing sent). -/
def pure_effect (s : MSCState) (d : DiskImage) (r : Except PyErr (Int × Option Bytes)) :
    Except PyErr Effect :=
  r.map fun p => ⟨p.1, p.2, s, d, []⟩

/-- `handle_unknown_command`: zero-filled response of `data_transfer_length`
bytes (or no response when that length is 0) and `STATUS_FAILURE`. -/
def handle_unknown_command (cbw : CommandBlockWrapper) : Except PyErr (Int × Option Bytes) :=
  .ok (STATUS_FAILURE,
    if 0 < cbw.data_transfer_length then
      some (List.replicate cbw.data_transfer_length 0)
    else
      none)

/-- `handle_ignored_event`: always `(STATUS_OKAY, None)`. -/
def handle_ignored_event (_cbw : CommandBlockWrapper) : Except PyErr (Int × Option Bytes) :=
  .ok (STATUS_OKAY, none)

/-- The fixed 23-byte sense buffer of `handle_sense`. -/
def sense_response : Bytes :=
  [0x70, 0x00, 0xFF, 0x00, 0x00, 0x00, 0x00, 0x0A, 0x00, 0x00, 0x00, 0x00,
   0xFF, 0xFF, 0x00, 0x00, 0x00, 0x00, 0x00, 0x00, 0x00, 0x00, 0x00]

/-- `handle_sense`: `(STATUS_OKAY, sense_response)`. -/
def handle_sense (_cbw : CommandBlockWrapper) : Except PyErr (Int × Option Bytes) :=
  .ok (STATUS_OKAY, some sense_response)

/-- The 36 bytes `handle_inquiry` assembles before padding: the 8-byte fixed
header, 8-byte vendor `"GoodFET "`, 8-byte product id `"GoodFET "`, 8-byte
revision padding `"        "` and the 4 bytes `"0.01"`. -/
def inquiry_base : Bytes :=
  [0x00, 0x00, 0x05, 0x02, 0x14, 0x00, 0x00, 0x00] ++
  [0x47, 0x6f, 0x6f, 0x64, 0x46, 0x45, 0x54, 0x20] ++
  [0x47, 0x6f, 0x6f, 0x64, 0x46, 0x45, 0x54, 0x20] ++
  [0x20, 0x20, 0x20, 0x20, 0x20, 0x20, 0x20, 0x20] ++
  [0x30, 0x2e, 0x30, 0x31]

/-- `handle_inquiry`: `struct.unpack(">BBBHB", cbw.cb[0:6])` raises unless the
command block has at least 6 bytes (the unpacked values are only printed);
the response is `inquiry_base` padded with `data_transfer_length - 36` zero
bytes.  In Python `bytes([0] * diff)` with negative `diff` is empty, which is
exactly `Nat` truncated subtraction. -/
def handle_inquiry (cbw : CommandBlockWrapper) : Except PyErr (Int × Option Bytes) :=
  if 6 ≤ cbw.cb.length then
    .ok (STATUS_OKAY, some (inquiry_base ++ List.replicate (cbw.data_transfer_length - 36) 0))
  else
    .error .structError

/-- `handle_mode_sense`: reads `cbw.cb[2]` (raising if absent), masks the page
code, and returns the 8-byte header; a page other than `0x3f` yields the
variant ending in `0x00`. -/
def handle_mode_sense (cbw : CommandBlockWrapper) : Except PyErr (Int × Option Bytes) :=
  if 3 ≤ cbw.cb.length then
    let page := cbw.cb.getD 2 0 &&& 0x3f
    let response : Bytes := [0x07, 0x00, 0x00, 0x00, 0x00, 0x00, 0x00, 0x1c]
    let response := if page ≠ 0x3f then [0x07, 0x00, 0x00, 0x00, 0x00, 0x00, 0x00, 0x00] else response
    .ok (STATUS_OKAY, some response)
  else
    .error .indexError

/-- `handle_get_format_capacity`: fixed 12-byte descriptor. -/
def handle_get_format_capacity (_cbw : CommandBlockWrapper) : Except PyErr (Int × Option Bytes) :=
  .ok (STATUS_OKAY, some
    [0x00, 0x00, 0x00, 0x08, 0x00, 0x00, 0x10, 0x00, 0x10, 0x00, 0x02, 0x00])

/-- Python `(v >> sh) & 0xff` for a Python int `v`: arithmetic shift is floor
division by `2^sh`, and `& 0xff` of any int is the nonnegative residue mod
256. -/
def pyByte (v : Int) (sh : Nat) : Nat :=
  (Int.fdiv v (2 ^ sh) % 256).toNat

/-- `handle_get_read_capacity`: big-endian bytes of `get_sector_count`
followed by the fixed block-size field `00 00 02 00`. -/
def handle_get_read_capacity (d : DiskImage) (_cbw : CommandBlockWrapper) :
    Except PyErr (Int × Option Bytes) :=
  let lastlba := get_sector_count d
  .ok (STATUS_OKAY, some
    [pyByte lastlba 24, pyByte lastlba 16, pyByte lastlba 8, pyByte lastlba 0,
     0x00, 0x00, 0x02, 0x00])

/-- `handle_read`: decodes the base LBA from command bytes 2–5 and the block
count from bytes 7–8 (the highest index read is 8, so a shorter command block
raises `IndexError`), then sends each sector directly on the bulk-IN endpoint
and returns `(STATUS_OKAY, None)`. -/
def handle_read (s : MSCState) (d : DiskImage) (cbw : CommandBlockWrapper) :
    Except PyErr Effect :=
  if 9 ≤ cbw.cb.length then
    let base_lba :=
      cbw.cb.getD 2 0 <<< 24
        ||| cbw.cb.getD 3 0 <<< 16
        ||| cbw.cb.getD 4 0 <<< 8
        ||| cbw.cb.getD 5 0
    let num_blocks := cbw.cb.getD 7 0 <<< 8 ||| cbw.cb.getD 8 0
    .ok ⟨STATUS_OKAY, none, s, d,
      (List.range num_blocks).map fun block_num => get_sector_data d (base_lba + block_num)⟩
  else
    .error .indexError

/-- `handle_write`: decodes the base LBA from command bytes 1–4 (one byte
earlier than `handle_read`) and the block count from bytes 7–8, records the
write session on the interface state and returns `STATUS_INCOMPLETE`. -/
def handle_write (s : MSCState) (d : DiskImage) (cbw : CommandBlockWrapper) :
    Except PyErr Effect :=
  if 9 ≤ cbw.cb.length then
    let base_lba :=
      cbw.cb.getD 1 0 <<< 24
        ||| cbw.cb.getD 2 0 <<< 16
        ||| cbw.cb.getD 3 0 <<< 8
        ||| cbw.cb.getD 4 0
    let num_blocks := cbw.cb.getD 7 0 <<< 8 ||| cbw.cb.getD 8 0
    .ok ⟨STATUS_INCOMPLETE, none,
      { s with
        is_write_in_progress := true
        write_cbw := some cbw
        write_base_lba := base_lba
        write_length := num_blocks * d.block_size }, d, []⟩
  else
    .error .indexError

/-- `continue_write` in the source reads the name `data` (`self.write_data +=
data`), but its parameter is `cbw` — the delivered chunk already parsed as a
`CommandBlockWrapper` by `handle_data_available` — and no `data` is in scope,
so every call raises `NameError` before any state is changed. -/
def continue_write (_s : MSCState) (_d : DiskImage) (_cbw : CommandBlockWrapper) :
    Except PyErr Effect :=
  .error .nameError

/-- `handle_scsi_command`: reads the opcode (`cbw.cb[0]`, raising on an empty
command block) and dispatches through the table built by
`_initialize_scsi_commands`; unregistered opcodes go to
`handle_unknown_command`. -/
def handle_scsi_command (s : MSCState) (d : DiskImage) (cbw : CommandBlockWrapper) :
    Except PyErr Effect :=
  match cbw.cb with
  | [] => .error .indexError
  | opcode :: _ =>
    if opcode = 0x00 then pure_effect s d (handle_ignored_event cbw)
    else if opcode = 0x03 then pure_effect s d (handle_sense cbw)
    else if opcode = 0x12 then pure_effect s d (handle_inquiry cbw)
    else if opcode = 0x1a then pure_effect s d (handle_mode_sense cbw)
    else if opcode = 0x5a then pure_effect s d (handle_mode_sense cbw)
    else if opcode = 0x1e then pure_effect s d (handle_ignored_event cbw)
    else if opcode = 0x23 then pure_effect s d (handle_get_format_capacity cbw)
    else if opcode = 0x25 then pure_effect s d (handle_get_read_capacity d cbw)
    else if opcode = 0x28 then handle_read s d cbw
    else if opcode = 0x2a then handle_write s d cbw
    else if opcode = 0x36 then pure_effect s d (handle_ignored_event cbw)
    else pure_effect s d (handle_unknown_command cbw)

/-- The 13 CSW bytes built at the end of `handle_data_available`:
`USBS`, the four tag bytes of the (re)parsed CBW, a zero residue, and the
status byte. -/
def csw_bytes (tag : Bytes) (status : Int) : Bytes :=
  [0x55, 0x53, 0x42, 0x53,
   tag.getD 0 0, tag.getD 1 0, tag.getD 2 0, tag.getD 3 0,
   0x00, 0x00, 0x00, 0x00,
   status.toNat]

/-- The tail of `handle_data_available` once a handler has produced a result:
return silently on `STATUS_INCOMPLETE`; otherwise send the response payload
(if truthy, i.e. present and nonempty) and then the CSW. -/
def emit (cbw : CommandBlockWrapper) (eff : Effect) : MSCState × DiskImage × List Bytes :=
  if eff.status = STATUS_INCOMPLETE then
    (eff.st, eff.dsk, eff.sent)
  else
    let sent :=
      match eff.response with
      | some r => if r ≠ [] then eff.sent ++ [r] else eff.sent
      | none => eff.sent
    (eff.st, eff.dsk, sent ++ [csw_bytes cbw.tag eff.status])

/-- `handle_data_available`: parse the delivered chunk as a CBW (always, even
mid-write), route it to `continue_write` or `handle_scsi_command`, and emit
the response/CSW.  The returned triple is the new interface state, the new
disk state, and the chunks sent on the bulk-IN endpoint, in order. -/
def handle_data_available (s : MSCState) (d : DiskImage) (data : Bytes) :
    Except PyErr (MSCState × DiskImage × List Bytes) :=
  match CommandBlockWrapper.parse data with
  | .error e => .error e
  | .ok cbw =>
    (if s.is_write_in_progress then continue_write s d cbw else handle_scsi_command s d cbw).map
      (emit cbw)

/-! ### Specification-side definitions -/

/-- Big-endian value of four bytes (spec reading of the Read/Write LBA field). -/
def be32 (a b c d : Nat) : Nat := ((a * 256 + b) * 256 + c) * 256 + d

/-- Big-endian value of two bytes (spec reading of the block-count field). -/
def be16 (a b : Nat) : Nat := a * 256 + b

/-- The opcodes registered by `_initialize_scsi_commands`. -/
def scsi_opcodes : List Nat :=
  [0x00, 0x03, 0x12, 0x1a, 0x5a, 0x1e, 0x23, 0x25, 0x28, 0x2a, 0x36]

/-- Build a CBW byte sequence from its field values, as the spec's round-trip
property describes: signature, tag, little-endian 32-bit
`data_transfer_length`, flags byte, lun byte, cb-length byte, then the command
bytes. -/
def build_cbw (sig tag : Bytes) (dtl flags lun cbl : Nat) (cmd : Bytes) : Bytes :=
  sig ++ tag ++
    [dtl % 256, dtl / 256 % 256, dtl / 2 ^ 16 % 256, dtl / 2 ^ 24 % 256] ++
    [flags, lun, cbl] ++ cmd

/-! ### Helper lemmas -/

theorem log2fuel_eq_log2 : ∀ fuel n, n ≤ fuel → log2fuel fuel n = Nat.log2 n := by
  intro fuel
  induction fuel with
  | zero =>
    intro n hn
    interval_cases n
    simp [log2fuel, Nat.log2]
  | succ f ih =>
    intro n hn
    rw [log2fuel, Nat.log2]
    by_cases h2 : 2 ≤ n
    · rw [if_pos h2, if_pos h2, ih (n / 2) (by omega)]
    · rw [if_neg h2, if_neg h2]

theorem log2_eq (n : Nat) : log2' n = Nat.log2 n :=
  log2fuel_eq_log2 n n (Nat.le_refl n)

/-- Disjoint bitwise or is addition: the higher part is a multiple of `2^k`
and the lower part is below `2^k`. -/
theorem lor_eq_add {k a b : Nat} (ha : 2 ^ k ∣ a) (hb : b < 2 ^ k) : a ||| b = a + b := by
  obtain ⟨c, rfl⟩ := ha
  exact (Nat.mul_add_lt_is_or hb c).symm

/-- The big-endian decode chain of `handle_read`/`handle_write`, rewritten
arithmetically. -/
theorem be32_decode (a b c d : Nat) (hb : b < 256) (hc : c < 256) (hd : d < 256) :
    a <<< 24 ||| b <<< 16 ||| c <<< 8 ||| d = be32 a b c d := by
  have e1 : a <<< 24 ||| b <<< 16 = a * 2 ^ 24 + b * 2 ^ 16 := by
    rw [Nat.shiftLeft_eq, Nat.shiftLeft_eq]
    exact lor_eq_add (k := 24) ⟨a, by ring⟩ (by nlinarith)
  have e2 : a * 2 ^ 24 + b * 2 ^ 16 ||| c <<< 8 = a * 2 ^ 24 + b * 2 ^ 16 + c * 2 ^ 8 := by
    rw [Nat.shiftLeft_eq]
    exact lor_eq_add (k := 16) ⟨a * 2 ^ 8 + b, by ring⟩ (by nlinarith)
  have e3 : a * 2 ^ 24 + b * 2 ^ 16 + c * 2 ^ 8 ||| d =
      a * 2 ^ 24 + b * 2 ^ 16 + c * 2 ^ 8 + d :=
    lor_eq_add (k := 8) ⟨a * 2 ^ 16 + b * 2 ^ 8 + c, by ring⟩ hd
  rw [e1, e2, e3]
  unfold be32
  ring

/-- The big-endian block-count decode, rewritten arithmetically. -/
theorem be16_decode (a b : Nat) (hb : b < 256) :
    a <<< 8 ||| b = be16 a b := by
  rw [Nat.shiftLeft_eq]
  rw [lor_eq_add (k := 8) ⟨a, by ring⟩ hb]
  unfold be16
  ring

/-- The little-endian `data_transfer_length` decode of the CBW parser,
rewritten arithmetically. -/
theorem le32_decode (a b c d : Nat) (ha : a < 256) (hb : b < 256) (hc : c < 256) :
    a ||| b <<< 8 ||| c <<< 16 ||| d <<< 24 = ((d * 256 + c) * 256 + b) * 256 + a := by
  have e1 : a ||| b <<< 8 = b * 2 ^ 8 + a := by
    rw [Nat.shiftLeft_eq, Nat.lor_comm]
    exact lor_eq_add (k := 8) ⟨b, by ring⟩ ha
  have e2 : b * 2 ^ 8 + a ||| c <<< 16 = c * 2 ^ 16 + (b * 2 ^ 8 + a) := by
    rw [Nat.shiftLeft_eq, Nat.lor_comm]
    exact lor_eq_add (k := 16) ⟨c, by ring⟩ (by nlinarith)
  have e3 : c * 2 ^ 16 + (b * 2 ^ 8 + a) ||| d <<< 24 =
      d * 2 ^ 24 + (c * 2 ^ 16 + (b * 2 ^ 8 + a)) := by
    rw [Nat.shiftLeft_eq, Nat.lor_comm]
    exact lor_eq_add (k := 24) ⟨d, by ring⟩ (by nlinarith)
  rw [e1, e2, e3]
  ring

/-- `getD` of an in-range index is a member of the list. -/
theorem getD_lt_of_forall {l : Bytes} {i : Nat} (hi : i < l.length)
    (h : ∀ x ∈ l, x < 256) : l.getD i 0 < 256 := by
  rw [List.getD_eq_getElem?_getD, List.getElem?_eq_getElem hi]
  exact h _ (List.getElem_mem hi)

/-- For `n < 2^53` the quotient `n / 512` needs at most 44 significand bits,
so the double produced by Python true division is exact and the float-based
`int(n / 512)` agrees with integer floor division. -/
theorem pyIntTrueDiv_512_exact {n : Nat} (h : n < 2 ^ 53) : pyIntTrueDiv n 512 = n / 512 := by
  by_cases h0 : n = 0
  · simp [pyIntTrueDiv, h0]
  · have hb : log2' 512 = 9 := by decide
    have ha52 : log2' n ≤ 52 := by
      rw [log2_eq]
      have := (Nat.log2_lt h0).mpr h
      omega
    have h2n : 2 ^ log2' n ≤ n := by
      rw [log2_eq]
      exact Nat.log2_self_le h0
    have hE : floatExp n 512 = (log2' n : Int) - 9 := by
      unfold floatExp
      rw [hb, if_pos (by omega)]
      norm_num
    have hEbound : ¬ 52 ≤ floatExp n 512 := by
      rw [hE]
      omega
    unfold pyIntTrueDiv
    rw [if_neg h0, if_neg hEbound]
    have hk : (52 - floatExp n 512).toNat = 61 - log2' n := by
      rw [hE]
      omega
    rw [hk]
    have h9k : 9 ≤ 61 - log2' n := by omega
    have hsplit : n * 2 ^ (61 - log2' n) = n * 2 ^ (61 - log2' n - 9) * 512 := by
      rw [show (512 : Nat) = 2 ^ 9 by norm_num, Nat.mul_assoc, ← pow_add]
      congr 2
      omega
    have hq : rhe (n * 2 ^ (61 - log2' n)) 512 = n * 2 ^ (61 - log2' n - 9) := by
      unfold rhe
      rw [hsplit, Nat.mul_mod_left, Nat.mul_div_cancel _ (by norm_num)]
      simp
    rw [hq, show (2 : Nat) ^ (61 - log2' n) = 2 ^ (61 - log2' n - 9) * 2 ^ 9 by
      rw [← pow_add]; congr 1; omega]
    rw [Nat.mul_comm n (2 ^ (61 - log2' n - 9)),
      Nat.mul_div_mul_left _ _ (Nat.pos_pow_of_pos _ (by norm_num))]
    norm_num

/-- `get_sector_count` agrees with the spec formula `⌊size/512⌋ - 1` for
sizes below `2^53` bytes. -/
theorem get_sector_count_exact {d : DiskImage} (hbs : d.block_size = 512)
    (hsize : d.size < 2 ^ 53) :
    get_sector_count d = ((d.size / 512 : Nat) : Int) - 1 := by
  unfold get_sector_count
  rw [hbs, pyIntTrueDiv_512_exact hsize]

/-- `pyByte` on a nonnegative value is plain shift-and-mask arithmetic. -/
theorem pyByte_natCast (m sh : Nat) : pyByte (m : Int) sh = m / 2 ^ sh % 256 := by
  unfold pyByte
  rw [Int.fdiv_eq_ediv _ (by positivity)]
  norm_cast

/-- Length of one sector returned by `get_sector_data`, for an in-range LBA. -/
theorem get_sector_data_length {d : DiskImage} {address : Nat}
    (h : (address + 1) * d.block_size ≤ d.image.length) :
    (get_sector_data d address).length = d.block_size := by
  unfold get_sector_data
  rw [List.length_drop, List.length_take, Nat.min_eq_left h, Nat.add_mul, Nat.one_mul]
  omega

/-- Decidable equality for `Except` results (not provided by the core
library), so that concrete runs can be settled by `decide`. -/
instance {e a : Type} [DecidableEq e] [DecidableEq a] : DecidableEq (Except e a) := fun x y =>
  match x, y with
  | .ok u, .ok v =>
    if h : u = v then .isTrue (by rw [h]) else .isFalse (fun hc => h (by injection hc))
  | .error u, .error v =>
    if h : u = v then .isTrue (by rw [h]) else .isFalse (fun hc => h (by injection hc))
  | .ok _, .error _ => .isFalse (fun hc => Except.noConfusion hc)
  | .error _, .ok _ => .isFalse (fun hc => Except.noConfusion hc)

/-! ### Concrete demonstration inputs -/

/-- A demonstration disk handle: 512-byte sectors, 2048-byte file.  The byte
contents are irrelevant to (and untouched by) the control-flow scenarios it
is used in, so they are left empty to keep concrete evaluation small. -/
def demo_disk : DiskImage := ⟨512, 2048, [], []⟩

/-- A Write(10) CBW on the wire: tag `01 02 03 04`, transfer length 512,
command block `2a 00 00 00 05 00 00 00 01 00` (LBA 5, one block). -/
def write_cbw_bytes : Bytes :=
  [0x55, 0x53, 0x42, 0x43] ++ [1, 2, 3, 4] ++ [0x00, 0x02, 0x00, 0x00] ++
  [0x00, 0x00, 0x0a] ++ [0x2a, 0x00, 0x00, 0x00, 0x05, 0x00, 0x00, 0x00, 0x01, 0x00]

/-- The parse of `write_cbw_bytes`. -/
def write_cbw_parsed : CommandBlockWrapper :=
  ⟨[0x55, 0x53, 0x42, 0x43], [1, 2, 3, 4], 512, 0, 0, 10,
   [0x2a, 0x00, 0x00, 0x00, 0x05, 0x00, 0x00, 0x00, 0x01, 0x00]⟩

/-- The interface state right after the Write(10) above is dispatched. -/
def armed_state : MSCState := ⟨true, some write_cbw_parsed, 5, 512, []⟩

/-- A CBW whose opcode `0x99` is not in the dispatch table, transfer length 4. -/
def demo_unknown_cbw : CommandBlockWrapper :=
  ⟨[0x55, 0x53, 0x42, 0x43], [9, 9, 9, 9], 4, 0, 0, 10,
   [0x99, 0, 0, 0, 0, 0, 0, 0, 0, 0]⟩

/-- A Request Sense CBW on the wire: tag `07 08 09 0a`, transfer length 18. -/
def sense_cbw_bytes : Bytes :=
  [0x55, 0x53, 0x42, 0x43] ++ [7, 8, 9, 10] ++ [18, 0, 0, 0] ++ [0x80, 0, 6] ++
  [0x03, 0, 0, 0, 18, 0]

/-- The full result of delivering `sense_cbw_bytes` in the initial state: the
sense buffer is sent, then the CSW echoing the tag with status `0x00`. -/
def sense_out : MSCState × DiskImage × List Bytes :=
  (init_state, demo_disk,
   [sense_response, [0x55, 0x53, 0x42, 0x53, 7, 8, 9, 10, 0, 0, 0, 0, 0]])

/-- An Inquiry CBW (opcode `0x12`) with `data_transfer_length = 0`. -/
def inquiry_cbw_short : CommandBlockWrapper :=
  ⟨[0x55, 0x53, 0x42, 0x43], [1, 2, 3, 4], 0, 0, 0, 6, [0x12, 0, 0, 0, 36, 0]⟩

/-- An Inquiry CBW (opcode `0x12`) with `data_transfer_length = 40`. -/
def inquiry_cbw_40 : CommandBlockWrapper :=
  ⟨[0x55, 0x53, 0x42, 0x43], [1, 2, 3, 4], 40, 0x80, 0, 6, [0x12, 0, 0, 0, 36, 0]⟩

/-- A 4-sector disk with real contents for the Read(10) witness. -/
def four_sector_disk : DiskImage :=
  ⟨512, 2048, List.replicate 2048 3, List.replicate 2048 3⟩

/-- A Read(10) CBW for base LBA 1, block count 2. -/
def read_cbw_12 : CommandBlockWrapper :=
  ⟨[0x55, 0x53, 0x42, 0x43], [1, 2, 3, 4], 1024, 0x80, 0, 10,
   [0x28, 0, 0, 0, 0, 1, 0, 0, 2, 0]⟩

/-- A disk handle whose recorded size, `2^62 + 768` bytes, exposes the float
rounding in `get_sector_count` (the quotient `2^53 + 1.5` rounds up). -/
def huge_disk : DiskImage := ⟨512, 2 ^ 62 + 768, [], []⟩

/-- A 1 MiB disk handle (2048 sectors). -/
def mb_disk : DiskImage := ⟨512, 1048576, [], []⟩

/-- A one-sector disk with real contents. -/
def tiny_disk : DiskImage := ⟨512, 512, List.replicate 512 0, List.replicate 512 0⟩

/-- A two-sector disk with real contents. -/
def two_sector_disk : DiskImage :=
  ⟨512, 1024, List.replicate 1024 3, List.replicate 1024 3⟩

/-! ### Structural facts about parsing and the CSW -/

/-- A successfully parsed CBW records the four tag bytes at offsets 4–7. -/
theorem parse_tag {data : Bytes} {cbw : CommandBlockWrapper}
    (h : CommandBlockWrapper.parse data = .ok cbw) :
    cbw.tag = (data.drop 4).take 4 ∧ cbw.tag.length = 4 := by
  unfold CommandBlockWrapper.parse at h
  split at h
  · injection h with h
    subst h
    refine ⟨rfl, ?_⟩
    simp only [List.length_take, List.length_drop]
    omega
  · cases h

/-- With a 4-byte tag, `csw_bytes` is literally signature ++ tag ++ residue ++
status. -/
theorem csw_bytes_eq {tag : Bytes} (h : tag.length = 4) (st : Int) :
    csw_bytes tag st =
      [0x55, 0x53, 0x42, 0x53] ++ tag ++ [0x00, 0x00, 0x00, 0x00] ++ [st.toNat] := by
  rcases tag with _ | ⟨a, tag⟩
  · simp at h
  rcases tag with _ | ⟨b, tag⟩
  · simp at h
  rcases tag with _ | ⟨c, tag⟩
  · simp at h
  rcases tag with _ | ⟨d, tag⟩
  · simp at h
  rcases tag with _ | ⟨e, tag⟩
  · rfl
  · simp at h

/-! ### Claims -/

set_option maxHeartbeats 2000000 in
/-- Claim C1 (code bug): the spec's write-accumulation path is unreachable in
the code.  After the Write(10) CBW (LBA 5, count 1, expected length 512) arms
the write session, delivering a data chunk — 200 bytes or the full 512 —
makes `handle_data_available` raise `NameError`: `continue_write` reads the
name `data`, which is not defined in its scope (the chunk was parsed into a
`CommandBlockWrapper` and passed as `cbw`).  No bytes are appended, nothing
is committed, and no CSW is ever emitted on this path. -/
theorem c1_write_continuation_name_error :
    handle_data_available init_state demo_disk write_cbw_bytes =
      .ok (armed_state, demo_disk, []) ∧
    handle_data_available armed_state demo_disk (List.replicate 200 0xAA) =
      .error .nameError ∧
    handle_data_available armed_state demo_disk (List.replicate 512 0xAA) =
      .error .nameError := by
  decide

/-- Claim C3: a CBW whose opcode is not in the dispatch table gets
`STATUS_FAILURE` and a response of exactly `data_transfer_length` zero bytes
(no response at all when that length is zero), with no state change and
nothing streamed. -/
theorem c3_unknown_command (s : MSCState) (d : DiskImage) (cbw : CommandBlockWrapper)
    (op : Nat) (rest : Bytes) (hcb : cbw.cb = op :: rest) (hop : op ∉ scsi_opcodes) :
    handle_scsi_command s d cbw = .ok ⟨STATUS_FAILURE,
      if 0 < cbw.data_transfer_length then
        some (List.replicate cbw.data_transfer_length 0)
      else none, s, d, []⟩ ∧
    (List.replicate cbw.data_transfer_length 0).length = cbw.data_transfer_length ∧
    ∀ x ∈ List.replicate cbw.data_transfer_length 0, x = 0 := by
  simp only [scsi_opcodes, List.mem_cons, List.not_mem_nil, or_false, not_or] at hop
  obtain ⟨h0, h3, h12, h1a, h5a, h1e, h23, h25, h28, h2a, h36⟩ := hop
  unfold handle_scsi_command
  rw [hcb]
  simp only [if_neg h0, if_neg h3, if_neg h12, if_neg h1a, if_neg h5a, if_neg h1e,
    if_neg h23, if_neg h25, if_neg h28, if_neg h2a, if_neg h36]
  refine ⟨rfl, by simp, by simp⟩

/-- Witness for C3 at a concrete unknown opcode (`0x99`, transfer length 4). -/
theorem c3_unknown_command_witness :
    handle_scsi_command init_state demo_disk demo_unknown_cbw =
      .ok ⟨STATUS_FAILURE, some (List.replicate 4 0), init_state, demo_disk, []⟩ := by
  have h := c3_unknown_command init_state demo_disk demo_unknown_cbw 0x99
    [0, 0, 0, 0, 0, 0, 0, 0, 0] rfl (by decide)
  simpa using h.1

/-- Computation of the parser on a built CBW byte sequence, all fields in the
raw form the parser produces. -/
theorem parse_build_cbw (s0 s1 s2 s3 t0 t1 t2 t3 dtl flags lun cbl : Nat) (cmd : Bytes) :
    CommandBlockWrapper.parse
        (build_cbw [s0, s1, s2, s3] [t0, t1, t2, t3] dtl flags lun cbl cmd) =
      .ok ⟨[s0, s1, s2, s3], [t0, t1, t2, t3],
        dtl % 256 ||| (dtl / 256 % 256) <<< 8 ||| (dtl / 2 ^ 16 % 256) <<< 16
          ||| (dtl / 2 ^ 24 % 256) <<< 24,
        flags, lun &&& 15, cbl &&& 31, cmd⟩ := by
  unfold build_cbw CommandBlockWrapper.parse
  rw [if_pos (by simp)]
  simp only [Except.ok.injEq, CommandBlockWrapper.mk.injEq]
  refine ⟨rfl, rfl, ?_, rfl, rfl, rfl, rfl⟩
  have e8 : ([s0, s1, s2, s3] ++ [t0, t1, t2, t3] ++
      [dtl % 256, dtl / 256 % 256, dtl / 2 ^ 16 % 256, dtl / 2 ^ 24 % 256] ++
      [flags, lun, cbl] ++ cmd).getD 8 0 = dtl % 256 := rfl
  have e9 : ([s0, s1, s2, s3] ++ [t0, t1, t2, t3] ++
      [dtl % 256, dtl / 256 % 256, dtl / 2 ^ 16 % 256, dtl / 2 ^ 24 % 256] ++
      [flags, lun, cbl] ++ cmd).getD 9 0 = dtl / 256 % 256 := rfl
  have e10 : ([s0, s1, s2, s3] ++ [t0, t1, t2, t3] ++
      [dtl % 256, dtl / 256 % 256, dtl / 2 ^ 16 % 256, dtl / 2 ^ 24 % 256] ++
      [flags, lun, cbl] ++ cmd).getD 10 0 = dtl / 2 ^ 16 % 256 := rfl
  have e11 : ([s0, s1, s2, s3] ++ [t0, t1, t2, t3] ++
      [dtl % 256, dtl / 256 % 256, dtl / 2 ^ 16 % 256, dtl / 2 ^ 24 % 256] ++
      [flags, lun, cbl] ++ cmd).getD 11 0 = dtl / 2 ^ 24 % 256 := rfl
  rw [e8, e9, e10, e11]

/-- Claim C9: building a CBW byte sequence from its fields and parsing it
back recovers tag, `data_transfer_length`, flags, lun, cb-length and the
command bytes exactly. -/
theorem c9_cbw_roundtrip (s0 s1 s2 s3 t0 t1 t2 t3 dtl flags lun cbl : Nat) (cmd : Bytes)
    (hdtl : dtl < 2 ^ 32) (hlun : lun ≤ 0x0f) (hcbl : cbl ≤ 0x1f) :
    ∃ cbw, CommandBlockWrapper.parse
        (build_cbw [s0, s1, s2, s3] [t0, t1, t2, t3] dtl flags lun cbl cmd) = .ok cbw ∧
      cbw.tag = [t0, t1, t2, t3] ∧
      cbw.data_transfer_length = dtl ∧
      cbw.flags = flags ∧
      cbw.lun = lun ∧
      cbw.cb_length = cbl ∧
      cbw.cb = cmd := by
  refine ⟨_, parse_build_cbw s0 s1 s2 s3 t0 t1 t2 t3 dtl flags lun cbl cmd,
    rfl, ?_, rfl, ?_, ?_, rfl⟩
  · show dtl % 256 ||| (dtl / 256 % 256) <<< 8 ||| (dtl / 2 ^ 16 % 256) <<< 16
        ||| (dtl / 2 ^ 24 % 256) <<< 24 = dtl
    rw [le32_decode (dtl % 256) (dtl / 256 % 256) (dtl / 2 ^ 16 % 256) (dtl / 2 ^ 24 % 256)
      (by omega) (by omega) (by omega)]
    omega
  · show lun &&& 15 = lun
    rw [show (15 : Nat) = 2 ^ 4 - 1 by norm_num, Nat.and_pow_two_sub_one_eq_mod]
    omega
  · show cbl &&& 31 = cbl
    rw [show (31 : Nat) = 2 ^ 5 - 1 by norm_num, Nat.and_pow_two_sub_one_eq_mod]
    omega

/-- Witness for C9 at a concrete CBW (tag `de ad be ef`, transfer length 512,
flags `0x80`, lun 3, cb-length 10, Read(10) command block). -/
theorem c9_cbw_roundtrip_witness :
    ∃ cbw, CommandBlockWrapper.parse
        (build_cbw [0x55, 0x53, 0x42, 0x43] [0xde, 0xad, 0xbe, 0xef] 512 0x80 3 10
          [0x28, 0, 0, 0, 10, 0, 0, 0, 3, 0]) = .ok cbw ∧
      cbw.tag = [0xde, 0xad, 0xbe, 0xef] ∧
      cbw.data_transfer_length = 512 ∧
      cbw.flags = 0x80 ∧
      cbw.lun = 3 ∧
      cbw.cb_length = 10 ∧
      cbw.cb = [0x28, 0, 0, 0, 10, 0, 0, 0, 3, 0] :=
  c9_cbw_roundtrip 0x55 0x53 0x42 0x43 0xde 0xad 0xbe 0xef 512 0x80 3 10
    [0x28, 0, 0, 0, 10, 0, 0, 0, 3, 0] (by norm_num) (by norm_num) (by norm_num)

/-- Claim C10: `handle_data_available` parses every delivered chunk as a CBW
before consulting the write-in-progress flag, so any delivery shorter than 15
bytes — in any state, including mid-write — fails with the out-of-range
access, and 15 bytes suffice for the parse to succeed. -/
theorem c10_parse_before_state (s : MSCState) (d : DiskImage) (data : Bytes) :
    (data.length < 15 → handle_data_available s d data = .error .indexError) ∧
    (15 ≤ data.length → ∃ cbw, CommandBlockWrapper.parse data = .ok cbw) := by
  constructor
  · intro h
    unfold handle_data_available CommandBlockWrapper.parse
    rw [if_neg (by omega)]
  · intro h
    unfold CommandBlockWrapper.parse
    rw [if_pos h]
    exact ⟨_, rfl⟩

/-- Witness for C10: a 5-byte chunk crashes the entry point even while a
write is in progress; a 15-byte chunk parses. -/
theorem c10_parse_before_state_witness :
    handle_data_available armed_state demo_disk (List.replicate 5 0) =
      .error .indexError ∧
    ∃ cbw, CommandBlockWrapper.parse (List.replicate 15 0) = .ok cbw :=
  ⟨(c10_parse_before_state armed_state demo_disk (List.replicate 5 0)).1 (by decide),
   (c10_parse_before_state init_state demo_disk (List.replicate 15 0)).2 (by decide)⟩

/-- Claim C2: whenever `handle_data_available` completes a transaction (the
handler status is not the `INCOMPLETE` sentinel), the last chunk sent is
exactly one 13-byte CSW — signature `USBS`, the 4 tag bytes copied verbatim
from the CBW that triggered the transaction, a zero residue, and the status
byte.  No write transaction ever completes (`continue_write` raises, claim
C1), so every completing run goes through `handle_scsi_command` on the CBW
parsed from the delivered chunk. -/
theorem c2_csw_structure (s : MSCState) (d : DiskImage) (data : Bytes)
    (out : MSCState × DiskImage × List Bytes)
    (hok : handle_data_available s d data = .ok out) :
    ∃ cbw eff, CommandBlockWrapper.parse data = .ok cbw ∧
      s.is_write_in_progress = false ∧
      handle_scsi_command s d cbw = .ok eff ∧
      cbw.tag = (data.drop 4).take 4 ∧
      (eff.status = STATUS_INCOMPLETE → out.2.2 = eff.sent) ∧
      (eff.status ≠ STATUS_INCOMPLETE →
        ∃ pre, out.2.2 = pre ++
            [[0x55, 0x53, 0x42, 0x53] ++ cbw.tag ++ [0x00, 0x00, 0x00, 0x00] ++
              [eff.status.toNat]] ∧
          ([0x55, 0x53, 0x42, 0x53] ++ cbw.tag ++ [0x00, 0x00, 0x00, 0x00] ++
            [eff.status.toNat]).length = 13) := by
  unfold handle_data_available at hok
  split at hok
  · exact absurd hok (by simp)
  next cbw heq =>
    by_cases hw : s.is_write_in_progress
    · rw [if_pos hw] at hok
      simp [continue_write, Except.map] at hok
    · rw [if_neg hw] at hok
      cases hc : handle_scsi_command s d cbw with
      | error e =>
        rw [hc] at hok
        simp [Except.map] at hok
      | ok eff =>
        rw [hc] at hok
        simp only [Except.map] at hok
        injection hok with hok
        obtain ⟨htag, htaglen⟩ := parse_tag heq
        refine ⟨cbw, eff, heq, by simpa using hw, hc, htag, ?_, ?_⟩
        · intro hst
          rw [← hok]
          unfold emit
          rw [if_pos hst]
        · intro hst
          rw [← hok]
          unfold emit
          rw [if_neg hst, ← csw_bytes_eq htaglen]
          refine ⟨_, rfl, ?_⟩
          rw [csw_bytes_eq htaglen]
          simp [htaglen]

/-- Witness for C2: a Request Sense transaction on the demonstration disk;
its run completes and the sent chunks end with the 13-byte CSW. -/
theorem c2_csw_structure_witness :
    ∃ cbw eff, CommandBlockWrapper.parse sense_cbw_bytes = .ok cbw ∧
      init_state.is_write_in_progress = false ∧
      handle_scsi_command init_state demo_disk cbw = .ok eff ∧
      cbw.tag = (sense_cbw_bytes.drop 4).take 4 ∧
      (eff.status = STATUS_INCOMPLETE →
        sense_out.2.2 = eff.sent) ∧
      (eff.status ≠ STATUS_INCOMPLETE →
        ∃ pre, sense_out.2.2 = pre ++
            [[0x55, 0x53, 0x42, 0x53] ++ cbw.tag ++ [0x00, 0x00, 0x00, 0x00] ++
              [eff.status.toNat]] ∧
          ([0x55, 0x53, 0x42, 0x53] ++ cbw.tag ++ [0x00, 0x00, 0x00, 0x00] ++
            [eff.status.toNat]).length = 13) :=
  c2_csw_structure init_state demo_disk sense_cbw_bytes
    sense_out (by decide)

/-- Claim C4 counterexample: an Inquiry CBW with `data_transfer_length = 0`
yields the unpadded 36-byte response, not a response of exactly 0 bytes. -/
theorem c4_inquiry_counterexample :
    handle_inquiry inquiry_cbw_short = .ok (STATUS_OKAY, some inquiry_base) ∧
    inquiry_base.length = 36 ∧
    inquiry_cbw_short.data_transfer_length = 0 := by
  decide

/-- Claim C4 (amended): for a CBW with opcode `0x12` and at least 6 command
bytes, the handler returns `STATUS_OKAY` with the fixed 36 bytes (8-byte
header, vendor, product id, revision strings) padded with zero bytes out to
`data_transfer_length`; the response length is `max data_transfer_length 36`,
i.e. exactly `data_transfer_length` only when that is at least 36. -/
theorem c4_inquiry_amended (cbw : CommandBlockWrapper)
    (_hop : cbw.cb.getD 0 0 = 0x12) (h6 : 6 ≤ cbw.cb.length) :
    handle_inquiry cbw = .ok (STATUS_OKAY,
      some (inquiry_base ++ List.replicate (cbw.data_transfer_length - 36) 0)) ∧
    (inquiry_base ++ List.replicate (cbw.data_transfer_length - 36) 0).length =
      max cbw.data_transfer_length 36 := by
  constructor
  · unfold handle_inquiry
    rw [if_pos h6]
  · simp only [List.length_append, List.length_replicate]
    have : inquiry_base.length = 36 := by decide
    omega

/-- Witness for C4 at a concrete Inquiry CBW with `data_transfer_length = 40`. -/
theorem c4_inquiry_amended_witness :
    handle_inquiry inquiry_cbw_40 = .ok (STATUS_OKAY,
      some (inquiry_base ++ List.replicate (inquiry_cbw_40.data_transfer_length - 36) 0)) ∧
    (inquiry_base ++
      List.replicate (inquiry_cbw_40.data_transfer_length - 36) 0).length =
      max inquiry_cbw_40.data_transfer_length 36 :=
  c4_inquiry_amended inquiry_cbw_40 rfl (by decide)

/-- Claim C5: a Read(10) CBW with big-endian base LBA `B` in command bytes
2–5 and big-endian block count `K` in bytes 7–8 streams exactly the `K`
sectors at LBAs `B, B+1, …, B+K-1`, in that order, on the bulk-IN endpoint —
each 512 bytes when within the image — and returns `STATUS_OKAY` with no
response payload and no state change. -/
theorem c5_read_streams_sectors (s : MSCState) (d : DiskImage)
    (cbw : CommandBlockWrapper) (B K : Nat)
    (hbs : d.block_size = 512)
    (hlen : 9 ≤ cbw.cb.length)
    (hbytes : ∀ x ∈ cbw.cb, x < 256)
    (hB : B = be32 (cbw.cb.getD 2 0) (cbw.cb.getD 3 0) (cbw.cb.getD 4 0) (cbw.cb.getD 5 0))
    (hK : K = be16 (cbw.cb.getD 7 0) (cbw.cb.getD 8 0))
    (hrange : (B + K) * 512 ≤ d.image.length) :
    handle_read s d cbw = .ok ⟨STATUS_OKAY, none, s, d,
      (List.range K).map fun i => get_sector_data d (B + i)⟩ ∧
    ∀ chunk ∈ (List.range K).map fun i => get_sector_data d (B + i),
      chunk.length = 512 := by
  have h3 : cbw.cb.getD 3 0 < 256 := getD_lt_of_forall (by omega) hbytes
  have h4 : cbw.cb.getD 4 0 < 256 := getD_lt_of_forall (by omega) hbytes
  have h5 : cbw.cb.getD 5 0 < 256 := getD_lt_of_forall (by omega) hbytes
  have h8 : cbw.cb.getD 8 0 < 256 := getD_lt_of_forall (by omega) hbytes
  constructor
  · unfold handle_read
    rw [if_pos hlen,
      be32_decode (cbw.cb.getD 2 0) (cbw.cb.getD 3 0) (cbw.cb.getD 4 0) (cbw.cb.getD 5 0)
        h3 h4 h5,
      be16_decode (cbw.cb.getD 7 0) (cbw.cb.getD 8 0) h8, ← hB, ← hK]
  · intro chunk hc
    rw [List.mem_map] at hc
    obtain ⟨i, hi, rfl⟩ := hc
    rw [List.mem_range] at hi
    have hin : (B + i + 1) * d.block_size ≤ d.image.length := by
      rw [hbs]
      calc (B + i + 1) * 512 ≤ (B + K) * 512 := Nat.mul_le_mul_right _ (by omega)
        _ ≤ d.image.length := hrange
    rw [get_sector_data_length hin, hbs]

/-- Witness for C5: reading 2 sectors at LBA 1 from a 4-sector disk. -/
theorem c5_read_streams_sectors_witness :
    handle_read init_state four_sector_disk read_cbw_12 = .ok ⟨STATUS_OKAY, none,
      init_state, four_sector_disk,
      (List.range 2).map fun i => get_sector_data four_sector_disk (1 + i)⟩ ∧
    ∀ chunk ∈ (List.range 2).map fun i => get_sector_data four_sector_disk (1 + i),
      chunk.length = 512 :=
  c5_read_streams_sectors init_state four_sector_disk read_cbw_12 1 2 rfl (by decide)
    (by decide) (by decide) (by decide) (by norm_num [four_sector_disk])

/-- Claim C6: a Write(10) CBW decodes its base LBA big-endian from command
bytes 1–4 (one byte earlier than Read's 2–5) and the block count from bytes
7–8, arms the write session with expected byte length `K * 512`, and returns
the `INCOMPLETE` sentinel, so the delivery emits neither data nor a CSW. -/
theorem c6_write_setup (s : MSCState) (d : DiskImage) (cbw : CommandBlockWrapper)
    (B K : Nat)
    (hbs : d.block_size = 512)
    (hlen : 9 ≤ cbw.cb.length)
    (hbytes : ∀ x ∈ cbw.cb, x < 256)
    (hop : cbw.cb.getD 0 0 = 0x2a)
    (hB : B = be32 (cbw.cb.getD 1 0) (cbw.cb.getD 2 0) (cbw.cb.getD 3 0) (cbw.cb.getD 4 0))
    (hK : K = be16 (cbw.cb.getD 7 0) (cbw.cb.getD 8 0)) :
    handle_write s d cbw = .ok ⟨STATUS_INCOMPLETE, none,
      { s with
        is_write_in_progress := true
        write_cbw := some cbw
        write_base_lba := B
        write_length := K * 512 }, d, []⟩ ∧
    ∀ data, CommandBlockWrapper.parse data = .ok cbw →
      s.is_write_in_progress = false →
      handle_data_available s d data = .ok
        ({ s with
          is_write_in_progress := true
          write_cbw := some cbw
          write_base_lba := B
          write_length := K * 512 }, d, []) := by
  have h2 : cbw.cb.getD 2 0 < 256 := getD_lt_of_forall (by omega) hbytes
  have h3 : cbw.cb.getD 3 0 < 256 := getD_lt_of_forall (by omega) hbytes
  have h4 : cbw.cb.getD 4 0 < 256 := getD_lt_of_forall (by omega) hbytes
  have h8 : cbw.cb.getD 8 0 < 256 := getD_lt_of_forall (by omega) hbytes
  have hw : handle_write s d cbw = .ok ⟨STATUS_INCOMPLETE, none,
      { s with
        is_write_in_progress := true
        write_cbw := some cbw
        write_base_lba := B
        write_length := K * 512 }, d, []⟩ := by
    unfold handle_write
    rw [if_pos hlen,
      be32_decode (cbw.cb.getD 1 0) (cbw.cb.getD 2 0) (cbw.cb.getD 3 0) (cbw.cb.getD 4 0)
        h2 h3 h4,
      be16_decode (cbw.cb.getD 7 0) (cbw.cb.getD 8 0) h8, ← hB, ← hK, hbs]
  refine ⟨hw, ?_⟩
  intro data hp hidle
  have hcmd : handle_scsi_command s d cbw = handle_write s d cbw := by
    rcases hcb : cbw.cb with _ | ⟨op, rest⟩
    · rw [hcb] at hlen
      simp at hlen
    · rw [hcb] at hop
      simp only [List.getD_cons_zero] at hop
      subst hop
      unfold handle_scsi_command
      rw [hcb]
      norm_num
  unfold handle_data_available
  rw [hp, hidle]
  simp only [Bool.false_eq_true, if_false, hcmd, hw, Except.map]
  unfold emit
  rw [if_pos rfl]

/-- Witness for C6: a Write(10) CBW for LBA 5, one block, delivered in the
initial state. -/
theorem c6_write_setup_witness :
    handle_write init_state demo_disk write_cbw_parsed = .ok ⟨STATUS_INCOMPLETE, none,
      { init_state with
        is_write_in_progress := true
        write_cbw := some write_cbw_parsed
        write_base_lba := 5
        write_length := 1 * 512 }, demo_disk, []⟩ ∧
    ∀ data, CommandBlockWrapper.parse data = .ok write_cbw_parsed →
      init_state.is_write_in_progress = false →
      handle_data_available init_state demo_disk data = .ok
        ({ init_state with
          is_write_in_progress := true
          write_cbw := some write_cbw_parsed
          write_base_lba := 5
          write_length := 1 * 512 }, demo_disk, []) :=
  c6_write_setup init_state demo_disk write_cbw_parsed 5 1 rfl (by decide) (by decide)
    (by decide) (by decide) (by decide)

/-- Claim C7 counterexample: `get_sector_count` is computed with float true
division, not exact integer arithmetic.  At a backing size of `2^62 + 768`
bytes the quotient rounds up to the nearest double (`2^53 + 2`), so the
result differs from `⌊size/512⌋ - 1`. -/
theorem c7_sector_count_counterexample :
    get_sector_count huge_disk ≠
      ((huge_disk.size / huge_disk.block_size : Nat) : Int) - 1 := by
  decide

/-- Claim C7 (amended): `int(size / 512)` in the code is float true division,
which agrees with exact integer arithmetic only while the quotient fits 53
bits; for sizes below `2^53` (and below `2^41` for the 32-bit LBA field to be
exact), `get_sector_count` returns `⌊size/512⌋ - 1` and the Read-Capacity
response is its 4 big-endian bytes followed by `00 00 02 00`. -/
theorem c7_sector_count_amended (d : DiskImage) (cbw : CommandBlockWrapper)
    (hbs : d.block_size = 512) (hlo : 512 ≤ d.size) (hhi : d.size < 2 ^ 41) :
    get_sector_count d = ((d.size / 512 : Nat) : Int) - 1 ∧
    handle_get_read_capacity d cbw = .ok (STATUS_OKAY,
      some [(d.size / 512 - 1) / 2 ^ 24 % 256, (d.size / 512 - 1) / 2 ^ 16 % 256,
            (d.size / 512 - 1) / 2 ^ 8 % 256, (d.size / 512 - 1) % 256,
            0x00, 0x00, 0x02, 0x00]) ∧
    be32 ((d.size / 512 - 1) / 2 ^ 24 % 256) ((d.size / 512 - 1) / 2 ^ 16 % 256)
      ((d.size / 512 - 1) / 2 ^ 8 % 256) ((d.size / 512 - 1) % 256) =
      d.size / 512 - 1 := by
  have hexact : get_sector_count d = ((d.size / 512 : Nat) : Int) - 1 :=
    get_sector_count_exact hbs (lt_trans hhi (by norm_num))
  have hone : 1 ≤ d.size / 512 := (Nat.one_le_div_iff (by norm_num)).mpr hlo
  have hcast : get_sector_count d = ((d.size / 512 - 1 : Nat) : Int) := by
    rw [hexact, Nat.cast_sub hone, Nat.cast_one]
  refine ⟨hexact, ?_, ?_⟩
  · unfold handle_get_read_capacity
    rw [hcast]
    simp only [pyByte_natCast]
    norm_num
  · have hlt : d.size / 512 - 1 < 2 ^ 32 := by omega
    unfold be32
    omega

/-- Witness for C7 on a 1 MiB disk: 2048 sectors, last LBA 2047. -/
theorem c7_sector_count_amended_witness :
    get_sector_count mb_disk = ((mb_disk.size / 512 : Nat) : Int) - 1 ∧
    handle_get_read_capacity mb_disk demo_unknown_cbw = .ok (STATUS_OKAY,
      some [(mb_disk.size / 512 - 1) / 2 ^ 24 % 256, (mb_disk.size / 512 - 1) / 2 ^ 16 % 256,
            (mb_disk.size / 512 - 1) / 2 ^ 8 % 256, (mb_disk.size / 512 - 1) % 256,
            0x00, 0x00, 0x02, 0x00]) ∧
    be32 ((mb_disk.size / 512 - 1) / 2 ^ 24 % 256) ((mb_disk.size / 512 - 1) / 2 ^ 16 % 256)
      ((mb_disk.size / 512 - 1) / 2 ^ 8 % 256) ((mb_disk.size / 512 - 1) % 256) =
      mb_disk.size / 512 - 1 :=
  c7_sector_count_amended mb_disk demo_unknown_cbw rfl (by decide) (by decide)

/-- Claim C8 counterexample: writing a 1-byte payload to sector 0 does not
pad and succeed — the mmap slice assignment has the wrong size and raises. -/
theorem c8_put_sector_counterexample :
    put_sector_data tiny_disk 0 [0xAB] = .error .valueError := by
  decide

/-- Claim C8 (amended): `put_sector_data` writes `data` truncated to the
512-byte sector size at byte offset `lba * 512` and flushes the medium before
returning — but only when `data` is at least one sector long (and the sector
is within the image); shorter data makes the mmap slice assignment raise a
size-mismatch error (see the counterexample) instead of padding. -/
theorem c8_put_sector_amended (d : DiskImage) (lba : Nat) (data : Bytes)
    (hrange : (lba + 1) * d.block_size ≤ d.image.length)
    (hdata : d.block_size ≤ data.length) :
    put_sector_data d lba data = .ok
      { d with
        image := d.image.take (lba * d.block_size) ++ data.take d.block_size ++
          d.image.drop ((lba + 1) * d.block_size)
        disk := d.image.take (lba * d.block_size) ++ data.take d.block_size ++
          d.image.drop ((lba + 1) * d.block_size) } ∧
    (data.take d.block_size).length = d.block_size := by
  have hmul : lba * d.block_size ≤ (lba + 1) * d.block_size :=
    Nat.mul_le_mul_right _ (by omega)
  have hlo : lba * d.block_size ≤ d.image.length := le_trans hmul hrange
  have hcond : (data.take d.block_size).length =
      min ((lba + 1) * d.block_size) d.image.length -
        min (lba * d.block_size) d.image.length := by
    rw [List.length_take, min_eq_left hrange, min_eq_left hlo, min_eq_left hdata,
      Nat.add_mul, Nat.one_mul]
    omega
  constructor
  · simp only [put_sector_data, pySliceAssign]
    rw [if_pos hcond, min_eq_left hrange, min_eq_left hlo]
  · rw [List.length_take, min_eq_left hdata]

/-- Witness for C8: overwriting sector 1 of a two-sector disk with 512 bytes
of `0x07`. -/
theorem c8_put_sector_amended_witness :
    put_sector_data two_sector_disk 1 (List.replicate 512 7) = .ok
      { two_sector_disk with
        image := two_sector_disk.image.take (1 * two_sector_disk.block_size) ++
          (List.replicate 512 7).take two_sector_disk.block_size ++
          two_sector_disk.image.drop ((1 + 1) * two_sector_disk.block_size)
        disk := two_sector_disk.image.take (1 * two_sector_disk.block_size) ++
          (List.replicate 512 7).take two_sector_disk.block_size ++
          two_sector_disk.image.drop ((1 + 1) * two_sector_disk.block_size) } ∧
    ((List.replicate 512 7).take two_sector_disk.block_size).length =
      two_sector_disk.block_size :=
  c8_put_sector_amended two_sector_disk 1 (List.replicate 512 7)
    (by simp [two_sector_disk]) (by simp [two_sector_disk])

end USBMassStorage
